import Mathlib

/-!
Shallow embedding of the mathvm IR layer
(`src/students/2014/zhirkov/vm/ir/ir.h`).

Pointers to expression/atom nodes (raw pointers and `shared_ptr`s, which may
be null) are modelled as `Option`; pointers to `Block`s are modelled as
indices (`Nat`) into a `BlockHeap`, the list of all blocks created so far.
The two `Block::link` overloads and the implicit `Block`/`FunctionRecord`
constructors are modelled as explicit state-transforming operations.
-/

/-- `int64_t` (no arithmetic is performed on these values here). -/
abbrev Int64 := Int

namespace mathvm

/-- Modelled from the spec: `mathvm::toString` is declared in `../util.h`,
which is not among the sources; the spec says the entry block's name is the
decimal string rendering of the function id. -/
def toString (n : Nat) : String := Nat.repr n

namespace IR

/-- `enum VarType { VT_Bot, VT_Int, VT_Double, VT_Ptr }` -/
inductive VarType
  | VT_Bot
  | VT_Int
  | VT_Double
  | VT_Ptr
  deriving DecidableEq, Repr

/-- `BinOp::Type`, generated by `FOR_IR_BINOP`. -/
inductive BinOpType
  | BO_ADD
  | BO_SUB
  | BO_MUL
  | BO_DIV
  | BO_MOD
  | BO_LT
  | BO_LE
  | BO_EQ
  | BO_NEQ
  | BO_OR
  | BO_AND
  | BO_LOR
  | BO_LAND
  | BO_XOR
  | BO_INVALID
  deriving DecidableEq, Repr

/-- `UnOp::Type`, generated by `FOR_IR_UNOP`. -/
inductive UnOpType
  | UO_CAST_I2D
  | UO_CAST_D2I
  | UO_CAST_P2I
  | UO_CAST_I2P
  | UO_NEG
  | UO_NOT
  | UO_INVALID
  deriving DecidableEq, Repr

/-- `enum IrType`, generated by `FOR_IR` (`DECLARE_IR_TYPE`), in source order. -/
inductive IrType
  | IT_BinOp
  | IT_UnOp
  | IT_Variable
  | IT_Return
  | IT_Phi
  | IT_Int
  | IT_Double
  | IT_Ptr
  | IT_Block
  | IT_Assignment
  | IT_Call
  | IT_Print
  | IT_FunctionRecord
  | IT_JumpAlways
  | IT_JumpCond
  | IT_INVALID
  deriving DecidableEq, Repr

/-- `struct Variable : Atom { const uint64_t id; }` -/
structure Variable where
  id : Nat
  deriving DecidableEq, Repr

/-- The `Atom` subclasses: `Variable`, `Int`, `Double`, `Ptr`. -/
inductive Atom
  | Variable (v : Variable)
  | Int (value : Int64)
  | Double (value : Float)
  | Ptr (value : Nat) (isPooledString : Bool)

/-- The `Expression` subclasses; `Atom`s are `Expression`s via `Expression.atom`.
Every possibly-null node pointer (`shared_ptr` or raw) is an `Option`. -/
inductive Expression
  | atom (a : Atom)
  | BinOp (left right : Option Expression) (type : BinOpType)
  | UnOp (operand : Option Expression) (type : UnOpType)
  | Phi (vars : List (Option Variable))
  | Call (funId : Nat) (params : List (Option Atom))

/-- The `Statement` subclasses: `Assignment`, `Return`, `Print`. -/
inductive Statement
  | Assignment (var : Variable) (value : Option Expression)
  | Return (atom : Option Atom)
  | Print (atom : Option Atom)

/-- The `Jump` subclasses.  `JumpAlways::destination` and
`JumpCond::yes`/`no` are references to blocks, modelled as heap indices. -/
inductive Jump
  | JumpAlways (destination : Nat)
  | JumpCond (yes no : Nat) (condition : Option Atom)

/-- `struct Block : IrElement`: private `Jump* _transition` (NULL until the
block is linked), public `name`, `predecessors`, `contents`. -/
structure Block where
  _transition : Option Jump
  name : String
  predecessors : List Nat
  contents : List Statement

/-- `Jump* Block::getTransition() const { return _transition; }` -/
def Block.getTransition (b : Block) : Option Jump := b._transition

/-- `Block(std::string const &name) : name(name), _transition(NULL)`;
the `predecessors` and `contents` vectors start empty. -/
def newBlock (name : String) : Block :=
  { _transition := none, name := name, predecessors := [], contents := [] }

/-- `class FunctionRecord : IrElement` with its public fields. -/
structure FunctionRecord where
  id : Nat
  entry : Block
  parametersIds : List Nat
  pool : List String
  returnType : VarType

/-- `FunctionRecord(uint16_t id, VarType returnType)
  : id(id), entry(Block(mathvm::toString(id))), returnType(returnType)`;
`parametersIds` and `pool` start empty. -/
def mkFunctionRecord (id : Nat) (returnType : VarType) : FunctionRecord :=
  { id := id
    entry := newBlock (mathvm.toString id)
    parametersIds := []
    pool := []
    returnType := returnType }

/-- An `IrElement*` may point at any concrete node kind; the concrete class
is the (outer, inner) constructor pair. -/
inductive IrElement
  | ofExpression (e : Expression)
  | ofStatement (s : Statement)
  | ofJump (j : Jump)
  | ofBlock (b : Block)
  | ofFunctionRecord (f : FunctionRecord)

/-- `virtual IrType getType()`, generated per concrete class by
`IR_COMMON_FUNCTIONS(ir)` as `return IT_##ir`. -/
def IrElement.getType : IrElement → IrType
  | .ofExpression (.atom (.Variable _)) => .IT_Variable
  | .ofExpression (.atom (.Int _)) => .IT_Int
  | .ofExpression (.atom (.Double _)) => .IT_Double
  | .ofExpression (.atom (.Ptr _ _)) => .IT_Ptr
  | .ofExpression (.BinOp _ _ _) => .IT_BinOp
  | .ofExpression (.UnOp _ _) => .IT_UnOp
  | .ofExpression (.Phi _) => .IT_Phi
  | .ofExpression (.Call _ _) => .IT_Call
  | .ofStatement (.Assignment _ _) => .IT_Assignment
  | .ofStatement (.Return _) => .IT_Return
  | .ofStatement (.Print _) => .IT_Print
  | .ofJump (.JumpAlways _) => .IT_JumpAlways
  | .ofJump (.JumpCond _ _ _) => .IT_JumpCond
  | .ofBlock _ => .IT_Block
  | .ofFunctionRecord _ => .IT_FunctionRecord

/-! Per-kind type tests and casts.  The base class `IrElement` declares
`virtual bool is##ir() { return false; }` and
`virtual ir* as##ir() { return NULL; }` for every kind (macro `HELPER`);
each concrete class `ir` overrides its own pair with `return true` /
`return this` (macro `IR_COMMON_FUNCTIONS`). -/

/-- `isBinOp`: overridden to `true` in `BinOp`, `false` from the base. -/
def IrElement.isBinOp : IrElement → Bool
  | .ofExpression (.BinOp _ _ _) => true
  | _ => false

/-- `asBinOp`: overridden to `this` in `BinOp`, `NULL` from the base. -/
def IrElement.asBinOp : IrElement → Option IrElement
  | e@(.ofExpression (.BinOp _ _ _)) => some e
  | _ => none

/-- `isUnOp`. -/
def IrElement.isUnOp : IrElement → Bool
  | .ofExpression (.UnOp _ _) => true
  | _ => false

/-- `asUnOp`. -/
def IrElement.asUnOp : IrElement → Option IrElement
  | e@(.ofExpression (.UnOp _ _)) => some e
  | _ => none

/-- `isVariable`. -/
def IrElement.isVariable : IrElement → Bool
  | .ofExpression (.atom (.Variable _)) => true
  | _ => false

/-- `asVariable`. -/
def IrElement.asVariable : IrElement → Option IrElement
  | e@(.ofExpression (.atom (.Variable _))) => some e
  | _ => none

/-- `isReturn`. -/
def IrElement.isReturn : IrElement → Bool
  | .ofStatement (.Return _) => true
  | _ => false

/-- `asReturn`. -/
def IrElement.asReturn : IrElement → Option IrElement
  | e@(.ofStatement (.Return _)) => some e
  | _ => none

/-- `isPhi`. -/
def IrElement.isPhi : IrElement → Bool
  | .ofExpression (.Phi _) => true
  | _ => false

/-- `asPhi`. -/
def IrElement.asPhi : IrElement → Option IrElement
  | e@(.ofExpression (.Phi _)) => some e
  | _ => none

/-- `isInt`. -/
def IrElement.isInt : IrElement → Bool
  | .ofExpression (.atom (.Int _)) => true
  | _ => false

/-- `asInt`. -/
def IrElement.asInt : IrElement → Option IrElement
  | e@(.ofExpression (.atom (.Int _))) => some e
  | _ => none

/-- `isDouble`. -/
def IrElement.isDouble : IrElement → Bool
  | .ofExpression (.atom (.Double _)) => true
  | _ => false

/-- `asDouble`. -/
def IrElement.asDouble : IrElement → Option IrElement
  | e@(.ofExpression (.atom (.Double _))) => some e
  | _ => none

/-- `isPtr`. -/
def IrElement.isPtr : IrElement → Bool
  | .ofExpression (.atom (.Ptr _ _)) => true
  | _ => false

/-- `asPtr`. -/
def IrElement.asPtr : IrElement → Option IrElement
  | e@(.ofExpression (.atom (.Ptr _ _))) => some e
  | _ => none

/-- `isBlock`. -/
def IrElement.isBlock : IrElement → Bool
  | .ofBlock _ => true
  | _ => false

/-- `asBlock`. -/
def IrElement.asBlock : IrElement → Option IrElement
  | e@(.ofBlock _) => some e
  | _ => none

/-- `isAssignment`. -/
def IrElement.isAssignment : IrElement → Bool
  | .ofStatement (.Assignment _ _) => true
  | _ => false

/-- `asAssignment`. -/
def IrElement.asAssignment : IrElement → Option IrElement
  | e@(.ofStatement (.Assignment _ _)) => some e
  | _ => none

/-- `isCall`. -/
def IrElement.isCall : IrElement → Bool
  | .ofExpression (.Call _ _) => true
  | _ => false

/-- `asCall`. -/
def IrElement.asCall : IrElement → Option IrElement
  | e@(.ofExpression (.Call _ _)) => some e
  | _ => none

/-- `isPrint`. -/
def IrElement.isPrint : IrElement → Bool
  | .ofStatement (.Print _) => true
  | _ => false

/-- `asPrint`. -/
def IrElement.asPrint : IrElement → Option IrElement
  | e@(.ofStatement (.Print _)) => some e
  | _ => none

/-- `isFunctionRecord`. -/
def IrElement.isFunctionRecord : IrElement → Bool
  | .ofFunctionRecord _ => true
  | _ => false

/-- `asFunctionRecord`. -/
def IrElement.asFunctionRecord : IrElement → Option IrElement
  | e@(.ofFunctionRecord _) => some e
  | _ => none

/-- `isJumpAlways`. -/
def IrElement.isJumpAlways : IrElement → Bool
  | .ofJump (.JumpAlways _) => true
  | _ => false

/-- `asJumpAlways`. -/
def IrElement.asJumpAlways : IrElement → Option IrElement
  | e@(.ofJump (.JumpAlways _)) => some e
  | _ => none

/-- `isJumpCond`. -/
def IrElement.isJumpCond : IrElement → Bool
  | .ofJump (.JumpCond _ _ _) => true
  | _ => false

/-- `asJumpCond`. -/
def IrElement.asJumpCond : IrElement → Option IrElement
  | e@(.ofJump (.JumpCond _ _ _)) => some e
  | _ => none

/-- `struct IrVisitor`: one pure-virtual `IrElement* visit(const ir* const)`
overload per kind (macro `VISITORABSTR` over `FOR_IR`).  The return type
`IrElement*` (possibly null) is `Option IrElement`.  Each handler receives
the fields of the concrete node it is passed. -/
structure IrVisitor where
  visitBinOp : Option Expression → Option Expression → BinOpType → Option IrElement
  visitUnOp : Option Expression → UnOpType → Option IrElement
  visitVariable : Variable → Option IrElement
  visitReturn : Option Atom → Option IrElement
  visitPhi : List (Option Variable) → Option IrElement
  visitInt : Int64 → Option IrElement
  visitDouble : Float → Option IrElement
  visitPtr : Nat → Bool → Option IrElement
  visitBlock : Block → Option IrElement
  visitAssignment : Variable → Option Expression → Option IrElement
  visitCall : Nat → List (Option Atom) → Option IrElement
  visitPrint : Option Atom → Option IrElement
  visitFunctionRecord : FunctionRecord → Option IrElement
  visitJumpAlways : Nat → Option IrElement
  visitJumpCond : Nat → Nat → Option Atom → Option IrElement

/-- The call `v->visit(this)` made inside every node's accept operation
(`IR_COMMON_FUNCTIONS`): C++ overload resolution on the static type of
`this` picks the visitor overload of the node's own concrete kind. -/
def IrVisitor.visit (v : IrVisitor) : IrElement → Option IrElement
  | .ofExpression (.atom (.Variable w)) => v.visitVariable w
  | .ofExpression (.atom (.Int x)) => v.visitInt x
  | .ofExpression (.atom (.Double x)) => v.visitDouble x
  | .ofExpression (.atom (.Ptr x b)) => v.visitPtr x b
  | .ofExpression (.BinOp l r t) => v.visitBinOp l r t
  | .ofExpression (.UnOp o t) => v.visitUnOp o t
  | .ofExpression (.Phi vs) => v.visitPhi vs
  | .ofExpression (.Call f ps) => v.visitCall f ps
  | .ofStatement (.Assignment w e) => v.visitAssignment w e
  | .ofStatement (.Return a) => v.visitReturn a
  | .ofStatement (.Print a) => v.visitPrint a
  | .ofJump (.JumpAlways d) => v.visitJumpAlways d
  | .ofJump (.JumpCond y n c) => v.visitJumpCond y n c
  | .ofBlock b => v.visitBlock b
  | .ofFunctionRecord f => v.visitFunctionRecord f

/-- The accept operation generated per class by `IR_COMMON_FUNCTIONS`:
`virtual IrElement* visit(IrVisitor* const v) const { v->visit(this); }`.
The body invokes the matching visitor overload and discards its result;
it contains no return statement, so no `IrElement` value is produced
(the declared `IrElement*` return value is left undefined). -/
def IrElement.visit (e : IrElement) (v : IrVisitor) : Unit :=
  let _ := v.visit e
  ()

/-! Block-graph construction.  A `BlockHeap` is the list of all blocks
created so far; a `Block*` is an index into it.  Out-of-range indices
(null/dangling pointers, undefined behaviour in the source) make an
operation return `none`. -/

/-- A `Block*` as an index into the heap of created blocks. -/
abbrev BlockId := Nat

/-- All blocks created so far, in creation order. -/
abbrev BlockHeap := List Block

/-- Dereference a block pointer (out of range gives a default block;
all uses are guarded by bounds checks in the operations below). -/
def getBlock (h : BlockHeap) (i : BlockId) : Block := h.getD i (newBlock "")

/-- `_transition = j` on block `i` (the other fields are untouched). -/
def setTrans (h : BlockHeap) (i : BlockId) (j : Jump) : BlockHeap :=
  h.set i { getBlock h i with _transition := some j }

/-- `predecessors.push_back(p)` on block `i`. -/
def pushPred (h : BlockHeap) (i : BlockId) (p : BlockId) : BlockHeap :=
  h.set i { getBlock h i with predecessors := (getBlock h i).predecessors ++ [p] }

/-- `contents.push_back(s)` on block `i` (the front end appends statements
directly to the public `contents` vector). -/
def pushStatement (h : BlockHeap) (i : BlockId) (s : Statement) : BlockHeap :=
  h.set i { getBlock h i with contents := (getBlock h i).contents ++ [s] }

/-- `void Block::link(JumpCond* cond)`:
`_transition = cond; cond->yes->predecessors.push_back(this);
 cond->no->predecessors.push_back(this);` — no already-linked check. -/
def linkCond (h : BlockHeap) (b yes no : BlockId) (condition : Option Atom) :
    Option BlockHeap :=
  if b < h.length ∧ yes < h.length ∧ no < h.length then
    some (pushPred (pushPred (setTrans h b (Jump.JumpCond yes no condition)) yes b) no b)
  else none

/-- `void Block::link(Block* next)`:
`_transition = new JumpAlways(next); next->predecessors.push_back(this);`
— no already-linked check. -/
def linkNext (h : BlockHeap) (b next : BlockId) : Option BlockHeap :=
  if b < h.length ∧ next < h.length then
    some (pushPred (setTrans h b (Jump.JumpAlways next)) next b)
  else none

/-- The block-construction and linking operations available to the front
end: create a block, append a statement to a block, and the two `link`
overloads. -/
inductive Op
  | newBlock (name : String)
  | addStatement (b : BlockId) (s : Statement)
  | linkNext (b next : BlockId)
  | linkCond (b yes no : BlockId) (condition : Option Atom)

/-- One construction step. -/
def step (h : BlockHeap) : Op → Option BlockHeap
  | .newBlock n => some (h ++ [newBlock n])
  | .addStatement b s => if b < h.length then some (pushStatement h b s) else none
  | .linkNext b next => linkNext h b next
  | .linkCond b y n c => linkCond h b y n c

/-- Run a construction sequence from the empty heap. -/
def run (ops : List Op) : Option BlockHeap := ops.foldlM step []

/-- The block has no transition yet (`getTransition() == NULL`). -/
def isUnlinked (h : BlockHeap) (b : BlockId) : Bool :=
  match (getBlock h b)._transition with
  | none => true
  | some _ => false

/-- Does the operation link a block? -/
def isLinkOp : Op → Bool
  | .linkNext _ _ => true
  | .linkCond _ _ _ _ => true
  | _ => false

/-- For link operations: the linked block is unlinked at this moment. -/
def opFresh (h : BlockHeap) : Op → Bool
  | .linkNext b _ => isUnlinked h b
  | .linkCond b _ _ _ => isUnlinked h b
  | _ => true

/-- Every link in the sequence is applied to a block that is unlinked at
that moment (i.e. no block is ever linked twice), and every step succeeds. -/
def eachLinkFresh : BlockHeap → List Op → Bool
  | _, [] => true
  | h, op :: rest =>
    match step h op with
    | some h2 => opFresh h op && eachLinkFresh h2 rest
    | none => false

/-- How many of jump `j`'s outgoing edges target block `t` (a `JumpCond`
with `yes = no = t` targets `t` twice). -/
def jumpTargets (j : Jump) (t : BlockId) : Nat :=
  match j with
  | .JumpAlways d => if d = t then 1 else 0
  | .JumpCond y n _ => (if y = t then 1 else 0) + (if n = t then 1 else 0)

/-- How many transition edges of block `b` target block `t`. -/
def edgeCount (h : BlockHeap) (b t : BlockId) : Nat :=
  match (getBlock h b)._transition with
  | none => 0
  | some j => jumpTargets j t

/-- How many times block `b` occurs in block `t`'s `predecessors`. -/
def predCount (h : BlockHeap) (t b : BlockId) : Nat :=
  ((getBlock h t).predecessors).count b

/-- Predecessor sets are the exact (multiset) inverse of transition edges. -/
def predsInverse (h : BlockHeap) : Prop :=
  ∀ b t, predCount h t b = edgeCount h b t

/-- Every transition edge targets a block inside the heap. -/
def targetsBounded (h : BlockHeap) : Prop :=
  ∀ b t, h.length ≤ t → edgeCount h b t = 0

/-- The spec's construction-time error taxonomy (§7); the source defines no
such errors. -/
inductive SpecError
  | MalformedNode
  | AlreadyLinked
  deriving DecidableEq, Repr

/-- Follows the spec's words, not the source (kept for comparison with the
source constructor `Expression.BinOp`): construction "must reject (fail with
`MalformedNode`) a null/absent required operand". -/
def binOpSpec (left right : Option Expression) (type : BinOpType) :
    Except SpecError Expression :=
  match left, right with
  | some l, some r => Except.ok (Expression.BinOp (some l) (some r) type)
  | _, _ => Except.error SpecError.MalformedNode

/-- An identity-rewriting visitor: every handler rebuilds (returns) the node
it was handed. -/
def idVisitor : IrVisitor where
  visitBinOp l r t := some (IrElement.ofExpression (Expression.BinOp l r t))
  visitUnOp o t := some (IrElement.ofExpression (Expression.UnOp o t))
  visitVariable w := some (IrElement.ofExpression (Expression.atom (Atom.Variable w)))
  visitReturn a := some (IrElement.ofStatement (Statement.Return a))
  visitPhi vs := some (IrElement.ofExpression (Expression.Phi vs))
  visitInt x := some (IrElement.ofExpression (Expression.atom (Atom.Int x)))
  visitDouble x := some (IrElement.ofExpression (Expression.atom (Atom.Double x)))
  visitPtr x b := some (IrElement.ofExpression (Expression.atom (Atom.Ptr x b)))
  visitBlock b := some (IrElement.ofBlock b)
  visitAssignment w e := some (IrElement.ofStatement (Statement.Assignment w e))
  visitCall f ps := some (IrElement.ofExpression (Expression.Call f ps))
  visitPrint a := some (IrElement.ofStatement (Statement.Print a))
  visitFunctionRecord f := some (IrElement.ofFunctionRecord f)
  visitJumpAlways d := some (IrElement.ofJump (Jump.JumpAlways d))
  visitJumpCond y n c := some (IrElement.ofJump (Jump.JumpCond y n c))

/-! Concrete construction sequences used as witnesses and counterexamples. -/

/-- Three blocks, a conditional link and an unconditional link, each applied
to a previously unlinked block. -/
def wOpsC1 : List Op :=
  [Op.newBlock "a", Op.newBlock "b", Op.newBlock "c",
   Op.linkCond 0 1 2 (some (Atom.Int 0)), Op.linkNext 1 2]

/-- The heap produced by `wOpsC1`. -/
def wHeapC1 : BlockHeap := (run wOpsC1).getD []

/-- Block 0 is linked twice: first to block 1, then to block 2. -/
def cexOpsC1 : List Op :=
  [Op.newBlock "a", Op.newBlock "b", Op.newBlock "c",
   Op.linkNext 0 1, Op.linkNext 0 2]

/-- The heap produced by `cexOpsC1`. -/
def cexHeapC1 : BlockHeap := (run cexOpsC1).getD []

/-- Three fresh blocks for a conditional link with distinct targets. -/
def wHeapC2 : BlockHeap :=
  (run [Op.newBlock "c", Op.newBlock "y", Op.newBlock "n"]).getD []

/-- `wHeapC2` after `link(block 0, JumpCond(yes = 1, no = 2, Variable 1))`. -/
def wHeapC2' : BlockHeap :=
  (linkCond wHeapC2 0 1 2 (some (Atom.Variable ⟨1⟩))).getD []

/-- Two fresh blocks for a conditional link whose two targets coincide. -/
def cexHeapC2 : BlockHeap := (run [Op.newBlock "b", Op.newBlock "t"]).getD []

/-- `cexHeapC2` after `link(block 0, JumpCond(yes = 1, no = 1, NULL))`. -/
def cexHeapC2' : BlockHeap := (linkCond cexHeapC2 0 1 1 none).getD []

/-- Scenario A: entry block `E` (index 0) holding `Assignment(v1, Int(5))`
and block `R` (index 1) holding `Return(Variable(v1))`, not yet linked. -/
def wOpsC3 : List Op :=
  [Op.newBlock "E", Op.newBlock "R",
   Op.addStatement 0 (Statement.Assignment ⟨1⟩ (some (Expression.atom (Atom.Int 5)))),
   Op.addStatement 1 (Statement.Return (some (Atom.Variable ⟨1⟩)))]

/-- The heap produced by `wOpsC3`. -/
def wHeapC3 : BlockHeap := (run wOpsC3).getD []

/-- `wHeapC3` after `link(E, R)`. -/
def wHeapC3' : BlockHeap := (linkNext wHeapC3 0 1).getD []

/-- Three blocks with block 0 already linked to block 1. -/
def cexHeapC4 : BlockHeap :=
  (run [Op.newBlock "a", Op.newBlock "b", Op.newBlock "c", Op.linkNext 0 1]).getD []

/-- `cexHeapC4` after a second `link(block 0, block 2)`. -/
def cexHeapC4' : BlockHeap := (step cexHeapC4 (Op.linkNext 0 2)).getD []

/-- A BinOp whose required left operand is absent (a null pointer). -/
def cexNodeC5 : Expression :=
  Expression.BinOp none (some (Expression.atom (Atom.Int 7))) BinOpType.BO_ADD

/-! ### Heap access lemmas -/

lemma getBlock_set_self (h : BlockHeap) (i : Nat) (blk : Block)
    (hi : i < h.length) : getBlock (h.set i blk) i = blk := by
  simp [getBlock, List.getD_eq_getElem?_getD, List.getElem?_set_self hi]

lemma getBlock_set_ne (h : BlockHeap) (i j : Nat) (blk : Block)
    (hij : i ≠ j) : getBlock (h.set i blk) j = getBlock h j := by
  simp [getBlock, List.getD_eq_getElem?_getD, List.getElem?_set_ne hij]

lemma getBlock_oob (h : BlockHeap) (i : Nat) (hi : h.length ≤ i) :
    getBlock h i = newBlock "" := by
  rw [getBlock, List.getD_eq_getElem?_getD, List.getElem?_eq_none hi]
  rfl

lemma getBlock_append_lt (h : BlockHeap) (blk : Block) (i : Nat)
    (hi : i < h.length) : getBlock (h ++ [blk]) i = getBlock h i := by
  simp [getBlock, List.getD_eq_getElem?_getD, List.getElem?_append, hi]

lemma getBlock_append_self (h : BlockHeap) (blk : Block) :
    getBlock (h ++ [blk]) h.length = blk := by
  simp [getBlock, List.getD_eq_getElem?_getD]

lemma getBlock_append_gt (h : BlockHeap) (blk : Block) (i : Nat)
    (hi : h.length < i) : getBlock (h ++ [blk]) i = newBlock "" := by
  rw [getBlock, List.getD_eq_getElem?_getD,
    List.getElem?_append_right (Nat.le_of_lt hi), List.getElem?_eq_none]
  · rfl
  · simpa using Nat.le_sub_of_add_le (by omega)

/-! ### Field-update lemmas: each heap mutation touches exactly one field of
one block. -/

lemma preds_setTrans (h : BlockHeap) (i : Nat) (j : Jump) (t : Nat) :
    (getBlock (setTrans h i j) t).predecessors = (getBlock h t).predecessors := by
  unfold setTrans
  rcases eq_or_ne i t with rfl | hne
  · rcases Nat.lt_or_ge i h.length with hlt | hge
    · rw [getBlock_set_self h i _ hlt]
    · rw [List.set_eq_of_length_le hge]
  · rw [getBlock_set_ne h i t _ hne]

lemma trans_setTrans_self (h : BlockHeap) (i : Nat) (j : Jump)
    (hi : i < h.length) :
    (getBlock (setTrans h i j) i)._transition = some j := by
  unfold setTrans
  rw [getBlock_set_self h i _ hi]

lemma trans_setTrans_ne (h : BlockHeap) (i b : Nat) (j : Jump) (hbi : b ≠ i) :
    (getBlock (setTrans h i j) b)._transition = (getBlock h b)._transition := by
  unfold setTrans
  rw [getBlock_set_ne h i b _ (Ne.symm hbi)]

lemma trans_pushPred (h : BlockHeap) (i p b : Nat) :
    (getBlock (pushPred h i p) b)._transition = (getBlock h b)._transition := by
  unfold pushPred
  rcases eq_or_ne i b with rfl | hne
  · rcases Nat.lt_or_ge i h.length with hlt | hge
    · rw [getBlock_set_self h i _ hlt]
    · rw [List.set_eq_of_length_le hge]
  · rw [getBlock_set_ne h i b _ hne]

lemma preds_pushPred_self (h : BlockHeap) (i p : Nat) (hi : i < h.length) :
    (getBlock (pushPred h i p) i).predecessors =
      (getBlock h i).predecessors ++ [p] := by
  unfold pushPred
  rw [getBlock_set_self h i _ hi]

lemma preds_pushPred_ne (h : BlockHeap) (i p t : Nat) (hne : t ≠ i) :
    (getBlock (pushPred h i p) t).predecessors = (getBlock h t).predecessors := by
  unfold pushPred
  rw [getBlock_set_ne h i t _ (Ne.symm hne)]

lemma preds_pushStatement (h : BlockHeap) (i : Nat) (s : Statement) (t : Nat) :
    (getBlock (pushStatement h i s) t).predecessors = (getBlock h t).predecessors := by
  unfold pushStatement
  rcases eq_or_ne i t with rfl | hne
  · rcases Nat.lt_or_ge i h.length with hlt | hge
    · rw [getBlock_set_self h i _ hlt]
    · rw [List.set_eq_of_length_le hge]
  · rw [getBlock_set_ne h i t _ hne]

lemma trans_pushStatement (h : BlockHeap) (i : Nat) (s : Statement) (t : Nat) :
    (getBlock (pushStatement h i s) t)._transition = (getBlock h t)._transition := by
  unfold pushStatement
  rcases eq_or_ne i t with rfl | hne
  · rcases Nat.lt_or_ge i h.length with hlt | hge
    · rw [getBlock_set_self h i _ hlt]
    · rw [List.set_eq_of_length_le hge]
  · rw [getBlock_set_ne h i t _ hne]

lemma preds_append (h : BlockHeap) (n : String) (t : Nat) :
    (getBlock (h ++ [newBlock n]) t).predecessors = (getBlock h t).predecessors := by
  rcases Nat.lt_trichotomy t h.length with hlt | rfl | hgt
  · rw [getBlock_append_lt h _ t hlt]
  · rw [getBlock_append_self, getBlock_oob h _ (Nat.le_refl _)]
    rfl
  · rw [getBlock_append_gt h _ t hgt, getBlock_oob h t (Nat.le_of_lt hgt)]

lemma trans_append (h : BlockHeap) (n : String) (t : Nat) :
    (getBlock (h ++ [newBlock n]) t)._transition = (getBlock h t)._transition := by
  rcases Nat.lt_trichotomy t h.length with hlt | rfl | hgt
  · rw [getBlock_append_lt h _ t hlt]
  · rw [getBlock_append_self, getBlock_oob h _ (Nat.le_refl _)]
    rfl
  · rw [getBlock_append_gt h _ t hgt, getBlock_oob h t (Nat.le_of_lt hgt)]

/-! ### Count lemmas -/

lemma predCount_setTrans (h : BlockHeap) (i : Nat) (j : Jump) (t b : Nat) :
    predCount (setTrans h i j) t b = predCount h t b := by
  unfold predCount
  rw [preds_setTrans]

lemma predCount_pushStatement (h : BlockHeap) (i : Nat) (s : Statement) (t b : Nat) :
    predCount (pushStatement h i s) t b = predCount h t b := by
  unfold predCount
  rw [preds_pushStatement]

lemma predCount_append (h : BlockHeap) (n : String) (t b : Nat) :
    predCount (h ++ [newBlock n]) t b = predCount h t b := by
  unfold predCount
  rw [preds_append]

lemma predCount_pushPred (h : BlockHeap) (i p : Nat) (hi : i < h.length) (t b : Nat) :
    predCount (pushPred h i p) t b =
      predCount h t b + (if t = i ∧ p = b then 1 else 0) := by
  unfold predCount
  rcases eq_or_ne t i with rfl | hne
  · rw [preds_pushPred_self h t p hi]
    simp [List.count_append, List.count_singleton]
  · rw [preds_pushPred_ne h i p t hne]
    simp [hne]

lemma edgeCount_pushPred (h : BlockHeap) (i p : Nat) (b t : Nat) :
    edgeCount (pushPred h i p) b t = edgeCount h b t := by
  unfold edgeCount
  rw [trans_pushPred]

lemma edgeCount_pushStatement (h : BlockHeap) (i : Nat) (s : Statement) (b t : Nat) :
    edgeCount (pushStatement h i s) b t = edgeCount h b t := by
  unfold edgeCount
  rw [trans_pushStatement]

lemma edgeCount_append (h : BlockHeap) (n : String) (b t : Nat) :
    edgeCount (h ++ [newBlock n]) b t = edgeCount h b t := by
  unfold edgeCount
  rw [trans_append]

lemma edgeCount_setTrans_self (h : BlockHeap) (i : Nat) (j : Jump)
    (hi : i < h.length) (t : Nat) :
    edgeCount (setTrans h i j) i t = jumpTargets j t := by
  unfold edgeCount
  rw [trans_setTrans_self h i j hi]

lemma edgeCount_setTrans_ne (h : BlockHeap) (i b : Nat) (j : Jump)
    (hbi : b ≠ i) (t : Nat) :
    edgeCount (setTrans h i j) b t = edgeCount h b t := by
  unfold edgeCount
  rw [trans_setTrans_ne h i b j hbi]

lemma length_setTrans (h : BlockHeap) (i : Nat) (j : Jump) :
    (setTrans h i j).length = h.length := by
  unfold setTrans
  exact List.length_set ..

lemma length_pushPred (h : BlockHeap) (i p : Nat) :
    (pushPred h i p).length = h.length := by
  unfold pushPred
  exact List.length_set ..

lemma length_pushStatement (h : BlockHeap) (i : Nat) (s : Statement) :
    (pushStatement h i s).length = h.length := by
  unfold pushStatement
  exact List.length_set ..

lemma isUnlinked_iff (h : BlockHeap) (b : Nat) :
    isUnlinked h b = true ↔ (getBlock h b)._transition = none := by
  unfold isUnlinked
  cases (getBlock h b)._transition <;> simp

lemma edgeCount_of_unlinked (h : BlockHeap) (b : Nat)
    (hb : (getBlock h b)._transition = none) (t : Nat) : edgeCount h b t = 0 := by
  unfold edgeCount
  rw [hb]

/-! ### Invariant preservation -/

lemma predsInverse_nil : predsInverse ([] : BlockHeap) := fun _ _ => rfl

lemma targetsBounded_nil : targetsBounded ([] : BlockHeap) := fun _ _ _ => rfl

lemma linkNext_inv (h : BlockHeap) (b next : Nat) (h' : BlockHeap)
    (hs : linkNext h b next = some h')
    (hb : (getBlock h b)._transition = none)
    (h1 : predsInverse h) (h2 : targetsBounded h) :
    predsInverse h' ∧ targetsBounded h' := by
  unfold linkNext at hs
  split at hs
  case isFalse => exact absurd hs (by simp)
  case isTrue hc =>
    obtain ⟨hbl, hnl⟩ := hc
    obtain rfl : pushPred (setTrans h b (Jump.JumpAlways next)) next b = h' :=
      Option.some.inj hs
    have hnl' : next < (setTrans h b (Jump.JumpAlways next)).length := by
      rw [length_setTrans]; exact hnl
    constructor
    · intro q t
      rw [predCount_pushPred _ next b hnl', predCount_setTrans,
        edgeCount_pushPred]
      rcases eq_or_ne q b with rfl | hqb
      · rw [edgeCount_setTrans_self h q _ hbl]
        rw [h1 q t, edgeCount_of_unlinked h q hb]
        simp [jumpTargets, eq_comm]
      · rw [edgeCount_setTrans_ne h b q _ hqb]
        simp [h1 q t, Ne.symm hqb]
    · intro q t ht
      rw [length_pushPred, length_setTrans] at ht
      rw [edgeCount_pushPred]
      rcases eq_or_ne q b with rfl | hqb
      · rw [edgeCount_setTrans_self h q _ hbl]
        have : next ≠ t := Nat.ne_of_lt (Nat.lt_of_lt_of_le hnl ht)
        simp [jumpTargets, this]
      · rw [edgeCount_setTrans_ne h b q _ hqb]
        exact h2 q t ht

lemma linkCond_inv (h : BlockHeap) (b y n : Nat) (c : Option Atom) (h' : BlockHeap)
    (hs : linkCond h b y n c = some h')
    (hb : (getBlock h b)._transition = none)
    (h1 : predsInverse h) (h2 : targetsBounded h) :
    predsInverse h' ∧ targetsBounded h' := by
  unfold linkCond at hs
  split at hs
  case isFalse => exact absurd hs (by simp)
  case isTrue hc =>
    obtain ⟨hbl, hyl, hnl⟩ := hc
    obtain rfl :
        pushPred (pushPred (setTrans h b (Jump.JumpCond y n c)) y b) n b = h' :=
      Option.some.inj hs
    have hyl' : y < (setTrans h b (Jump.JumpCond y n c)).length := by
      rw [length_setTrans]; exact hyl
    have hnl' : n < (pushPred (setTrans h b (Jump.JumpCond y n c)) y b).length := by
      rw [length_pushPred, length_setTrans]; exact hnl
    constructor
    · intro q t
      rw [predCount_pushPred _ n b hnl', predCount_pushPred _ y b hyl',
        predCount_setTrans, edgeCount_pushPred, edgeCount_pushPred]
      rcases eq_or_ne q b with rfl | hqb
      · rw [edgeCount_setTrans_self h q _ hbl]
        rw [h1 q t, edgeCount_of_unlinked h q hb]
        simp only [jumpTargets, Nat.zero_add, and_true]
        congr 1 <;> simp [eq_comm]
      · rw [edgeCount_setTrans_ne h b q _ hqb]
        simp [h1 q t, Ne.symm hqb]
    · intro q t ht
      rw [length_pushPred, length_pushPred, length_setTrans] at ht
      rw [edgeCount_pushPred, edgeCount_pushPred]
      rcases eq_or_ne q b with rfl | hqb
      · rw [edgeCount_setTrans_self h q _ hbl]
        have hy : y ≠ t := Nat.ne_of_lt (Nat.lt_of_lt_of_le hyl ht)
        have hn : n ≠ t := Nat.ne_of_lt (Nat.lt_of_lt_of_le hnl ht)
        simp [jumpTargets, hy, hn]
      · rw [edgeCount_setTrans_ne h b q _ hqb]
        exact h2 q t ht

lemma step_preserves_inv (h : BlockHeap) (op : Op) (h' : BlockHeap)
    (hs : step h op = some h') (hf : opFresh h op = true)
    (h1 : predsInverse h) (h2 : targetsBounded h) :
    predsInverse h' ∧ targetsBounded h' := by
  cases op with
  | newBlock n =>
    obtain rfl : h ++ [newBlock n] = h' := Option.some.inj hs
    constructor
    · intro b t
      rw [predCount_append, edgeCount_append]
      exact h1 b t
    · intro b t ht
      rw [List.length_append] at ht
      rw [edgeCount_append]
      exact h2 b t (by simpa using Nat.le_of_succ_le ht)
  | addStatement b s =>
    simp only [step] at hs
    by_cases hb : b < h.length
    · rw [if_pos hb] at hs
      obtain rfl : pushStatement h b s = h' := Option.some.inj hs
      constructor
      · intro q t
        rw [predCount_pushStatement, edgeCount_pushStatement]
        exact h1 q t
      · intro q t ht
        rw [length_pushStatement] at ht
        rw [edgeCount_pushStatement]
        exact h2 q t ht
    · rw [if_neg hb] at hs
      exact absurd hs (by simp)
  | linkNext b next =>
    exact linkNext_inv h b next h' hs ((isUnlinked_iff h b).mp hf) h1 h2
  | linkCond b y n c =>
    exact linkCond_inv h b y n c h' hs ((isUnlinked_iff h b).mp hf) h1 h2

lemma foldlM_inv (ops : List Op) :
    ∀ h h' : BlockHeap, List.foldlM step h ops = some h' →
      eachLinkFresh h ops = true →
      predsInverse h → targetsBounded h →
      predsInverse h' ∧ targetsBounded h' := by
  induction ops with
  | nil =>
    intro h h' hr _ h1 h2
    obtain rfl : h = h' := Option.some.inj (by simpa [List.foldlM] using hr)
    exact ⟨h1, h2⟩
  | cons op rest ih =>
    intro h h' hr hf h1 h2
    rw [show List.foldlM step h (op :: rest) =
        step h op >>= fun s => List.foldlM step s rest by simp [List.foldlM]] at hr
    unfold eachLinkFresh at hf
    cases hstep : step h op with
    | none =>
      rw [hstep] at hf
      exact absurd hf (by simp)
    | some h2' =>
      rw [hstep] at hr hf
      rw [Bool.and_eq_true] at hf
      obtain ⟨hinv1, hinv2⟩ := step_preserves_inv h op h2' hstep hf.1 h1 h2
      exact ih h2' h' hr hf.2 hinv1 hinv2

lemma run_inv (ops : List Op) (h : BlockHeap) (hr : run ops = some h)
    (hf : eachLinkFresh [] ops = true) :
    predsInverse h ∧ targetsBounded h :=
  foldlM_inv ops [] h hr hf predsInverse_nil targetsBounded_nil

/-! ### Effects of a single link -/

lemma linkNext_elim (h : BlockHeap) (b next : Nat) (h' : BlockHeap)
    (hs : linkNext h b next = some h') :
    b < h.length ∧ next < h.length ∧
      h' = pushPred (setTrans h b (Jump.JumpAlways next)) next b := by
  unfold linkNext at hs
  split at hs
  case isTrue hc => exact ⟨hc.1, hc.2, (Option.some.inj hs).symm⟩
  case isFalse => exact absurd hs (by simp)

lemma linkCond_elim (h : BlockHeap) (b y n : Nat) (c : Option Atom) (h' : BlockHeap)
    (hs : linkCond h b y n c = some h') :
    b < h.length ∧ y < h.length ∧ n < h.length ∧
      h' = pushPred (pushPred (setTrans h b (Jump.JumpCond y n c)) y b) n b := by
  unfold linkCond at hs
  split at hs
  case isTrue hc => exact ⟨hc.1, hc.2.1, hc.2.2, (Option.some.inj hs).symm⟩
  case isFalse => exact absurd hs (by simp)

lemma linkNext_effects (h : BlockHeap) (b next : Nat) (h' : BlockHeap)
    (hs : linkNext h b next = some h') :
    (getBlock h' b)._transition = some (Jump.JumpAlways next) ∧
    (getBlock h' next).predecessors = (getBlock h next).predecessors ++ [b] ∧
    (∀ u, u ≠ next → (getBlock h' u).predecessors = (getBlock h u).predecessors) := by
  obtain ⟨hbl, hnl, rfl⟩ := linkNext_elim h b next h' hs
  have hnl' : next < (setTrans h b (Jump.JumpAlways next)).length := by
    rw [length_setTrans]; exact hnl
  refine ⟨?_, ?_, ?_⟩
  · rw [trans_pushPred, trans_setTrans_self h b _ hbl]
  · rw [preds_pushPred_self _ next b hnl', preds_setTrans]
  · intro u hu
    rw [preds_pushPred_ne _ next b u hu, preds_setTrans]

lemma linkCond_trans (h : BlockHeap) (b y n : Nat) (c : Option Atom) (h' : BlockHeap)
    (hs : linkCond h b y n c = some h') :
    (getBlock h' b)._transition = some (Jump.JumpCond y n c) := by
  obtain ⟨hbl, hyl, hnl, rfl⟩ := linkCond_elim h b y n c h' hs
  rw [trans_pushPred, trans_pushPred, trans_setTrans_self h b _ hbl]

lemma linkCond_effects (h : BlockHeap) (b y n : Nat) (c : Option Atom) (h' : BlockHeap)
    (hyn : y ≠ n) (hs : linkCond h b y n c = some h') :
    (getBlock h' b)._transition = some (Jump.JumpCond y n c) ∧
    (getBlock h' y).predecessors = (getBlock h y).predecessors ++ [b] ∧
    (getBlock h' n).predecessors = (getBlock h n).predecessors ++ [b] ∧
    (∀ u, u ≠ y → u ≠ n → (getBlock h' u).predecessors = (getBlock h u).predecessors) := by
  have htr := linkCond_trans h b y n c h' hs
  obtain ⟨hbl, hyl, hnl, rfl⟩ := linkCond_elim h b y n c h' hs
  have hyl' : y < (setTrans h b (Jump.JumpCond y n c)).length := by
    rw [length_setTrans]; exact hyl
  have hnl' : n < (pushPred (setTrans h b (Jump.JumpCond y n c)) y b).length := by
    rw [length_pushPred, length_setTrans]; exact hnl
  refine ⟨htr, ?_, ?_, ?_⟩
  · rw [preds_pushPred_ne _ n b y hyn, preds_pushPred_self _ y b hyl', preds_setTrans]
  · rw [preds_pushPred_self _ n b hnl', preds_pushPred_ne _ y b n (Ne.symm hyn),
      preds_setTrans]
  · intro u huy hun
    rw [preds_pushPred_ne _ n b u hun, preds_pushPred_ne _ y b u huy, preds_setTrans]

lemma linkNext_preds_prefix (h : BlockHeap) (b next : Nat) (h' : BlockHeap)
    (hs : linkNext h b next = some h') (t : Nat) :
    (getBlock h t).predecessors <+: (getBlock h' t).predecessors := by
  obtain ⟨_, hnl, rfl⟩ := linkNext_elim h b next h' hs
  rcases eq_or_ne t next with rfl | hne
  · rw [preds_pushPred_self _ t b (by rw [length_setTrans]; exact hnl), preds_setTrans]
    exact List.prefix_append _ _
  · rw [preds_pushPred_ne _ next b t hne, preds_setTrans]

lemma linkCond_preds_prefix (h : BlockHeap) (b y n : Nat) (c : Option Atom)
    (h' : BlockHeap) (hs : linkCond h b y n c = some h') (t : Nat) :
    (getBlock h t).predecessors <+: (getBlock h' t).predecessors := by
  obtain ⟨_, hyl, hnl, rfl⟩ := linkCond_elim h b y n c h' hs
  rcases eq_or_ne t n with rfl | htn
  · rw [preds_pushPred_self _ t b (by rw [length_pushPred, length_setTrans]; exact hnl)]
    rcases eq_or_ne t y with rfl | hty
    · rw [preds_pushPred_self _ t b (by rw [length_setTrans]; exact hyl), preds_setTrans,
        List.append_assoc]
      exact List.prefix_append _ _
    · rw [preds_pushPred_ne _ y b t hty, preds_setTrans]
      exact List.prefix_append _ _
  · rw [preds_pushPred_ne _ n b t htn]
    rcases eq_or_ne t y with rfl | hty
    · rw [preds_pushPred_self _ t b (by rw [length_setTrans]; exact hyl), preds_setTrans]
      exact List.prefix_append _ _
    · rw [preds_pushPred_ne _ y b t hty, preds_setTrans]

lemma step_nonlink_preds (h : BlockHeap) (op : Op) (h' : BlockHeap)
    (hs : step h op = some h') (hnl : isLinkOp op = false) (t : Nat) :
    (getBlock h' t).predecessors = (getBlock h t).predecessors := by
  cases op with
  | newBlock n =>
    obtain rfl : h ++ [newBlock n] = h' := Option.some.inj hs
    exact preds_append h n t
  | addStatement b s =>
    simp only [step] at hs
    by_cases hb : b < h.length
    · rw [if_pos hb] at hs
      obtain rfl : pushStatement h b s = h' := Option.some.inj hs
      exact preds_pushStatement h b s t
    · rw [if_neg hb] at hs
      exact absurd hs (by simp)
  | linkNext b next => simp [isLinkOp] at hnl
  | linkCond b y n c => simp [isLinkOp] at hnl

lemma step_preds_prefix (h : BlockHeap) (op : Op) (h' : BlockHeap)
    (hs : step h op = some h') (t : Nat) :
    (getBlock h t).predecessors <+: (getBlock h' t).predecessors := by
  cases op with
  | newBlock n =>
    rw [step_nonlink_preds h _ h' hs rfl t]
  | addStatement b s =>
    rw [step_nonlink_preds h _ h' hs rfl t]
  | linkNext b next => exact linkNext_preds_prefix h b next h' hs t
  | linkCond b y n c => exact linkCond_preds_prefix h b y n c h' hs t

/-! ## Claims -/

/-- C1 (amended): for every sequence of block-construction and linking
operations **in which every linked block was previously unlinked**, after
the run each block's predecessor multiset is the exact inverse of the
transition edges (`B` occurs in `T.predecessors` exactly as many times as
`B`'s transition targets `T`); moreover every operation only appends to
predecessor lists (entries are never removed), and non-linking operations
leave every predecessor list unchanged (linking is the only way
predecessors are added).  Without the freshness restriction the invariant
fails, because `Block::link` never checks for an existing transition
(see the counterexample). -/
theorem claim_C1 :
    (∀ ops h, run ops = some h → eachLinkFresh [] ops = true →
      ∀ b t, predCount h t b = edgeCount h b t) ∧
    (∀ h op h', step h op = some h' →
      ∀ t, (getBlock h t).predecessors <+: (getBlock h' t).predecessors) ∧
    (∀ h op h', step h op = some h' → isLinkOp op = false →
      ∀ t, (getBlock h' t).predecessors = (getBlock h t).predecessors) := by
  refine ⟨?_, ?_, ?_⟩
  · intro ops h hrun hfresh b t
    exact (run_inv ops h hrun hfresh).1 b t
  · intro h op h' hs t
    exact step_preds_prefix h op h' hs t
  · intro h op h' hs hnl t
    exact step_nonlink_preds h op h' hs hnl t

/-- Witness for C1 at a concrete construction sequence. -/
theorem claim_C1_witness :
    (run wOpsC1 = some wHeapC1 ∧ eachLinkFresh [] wOpsC1 = true ∧
      predCount wHeapC1 1 0 = edgeCount wHeapC1 0 1) ∧
    (step wHeapC1 (Op.newBlock "d") = some (wHeapC1 ++ [newBlock "d"]) ∧
      (getBlock wHeapC1 1).predecessors <+:
        (getBlock (wHeapC1 ++ [newBlock "d"]) 1).predecessors) ∧
    (getBlock (wHeapC1 ++ [newBlock "d"]) 1).predecessors =
      (getBlock wHeapC1 1).predecessors :=
  ⟨⟨rfl, rfl, claim_C1.1 wOpsC1 wHeapC1 rfl rfl 0 1⟩,
   ⟨rfl, claim_C1.2.1 wHeapC1 (Op.newBlock "d") (wHeapC1 ++ [newBlock "d"]) rfl 1⟩,
   claim_C1.2.2 wHeapC1 (Op.newBlock "d") (wHeapC1 ++ [newBlock "d"]) rfl rfl 1⟩

/-- C1 counterexample: the claim as stated (over *every* operation
sequence) is false.  After `[newBlock, newBlock, newBlock, link 0 → 1,
link 0 → 2]`, block 0 still occurs once in block 1's predecessors although
block 0's transition now targets only block 2: the predecessor sets are
not the inverse of the transition edges after the relink completes. -/
theorem claim_C1_counterexample :
    run cexOpsC1 = some cexHeapC1 ∧
    predCount cexHeapC1 1 0 = 1 ∧
    edgeCount cexHeapC1 0 1 = 0 ∧
    predCount cexHeapC1 1 0 ≠ edgeCount cexHeapC1 0 1 :=
  ⟨rfl, rfl, rfl, by decide⟩

/-- C2 (amended): for every previously unlinked block `B` and every
conditional link of `B` to **distinct** targets `(Y, N)`: the link sets
`B`'s transition to that conditional jump, `B` then occurs exactly once in
`Y.predecessors` and exactly once in `N.predecessors`, and every other
block's predecessor list is unchanged.  When `Y = N` the source pushes `B`
twice into the shared predecessor list (see the counterexample), so the
distinctness hypothesis is necessary. -/
theorem claim_C2 :
    ∀ ops h b y n c h',
      run ops = some h → eachLinkFresh [] ops = true →
      isUnlinked h b = true → y ≠ n →
      linkCond h b y n c = some h' →
      (getBlock h' b)._transition = some (Jump.JumpCond y n c) ∧
      predCount h' y b = 1 ∧ predCount h' n b = 1 ∧
      (∀ t, t ≠ y → t ≠ n →
        (getBlock h' t).predecessors = (getBlock h t).predecessors) := by
  intro ops h b y n c h' hrun hfresh hunl hyn hlink
  obtain ⟨hinv, _⟩ := run_inv ops h hrun hfresh
  obtain ⟨htr, hy, hn, hother⟩ := linkCond_effects h b y n c h' hyn hlink
  have hb0 : (getBlock h b)._transition = none := (isUnlinked_iff h b).mp hunl
  have hzy : predCount h y b = 0 := by
    rw [hinv b y]
    exact edgeCount_of_unlinked h b hb0 y
  have hzn : predCount h n b = 0 := by
    rw [hinv b n]
    exact edgeCount_of_unlinked h b hb0 n
  unfold predCount at hzy hzn
  refine ⟨htr, ?_, ?_, hother⟩
  · unfold predCount
    rw [hy]
    simp [List.count_append, List.count_singleton, hzy]
  · unfold predCount
    rw [hn]
    simp [List.count_append, List.count_singleton, hzn]

/-- Witness for C2: three fresh blocks, block 0 conditionally linked to
blocks 1 and 2. -/
theorem claim_C2_witness :
    (run [Op.newBlock "c", Op.newBlock "y", Op.newBlock "n"] = some wHeapC2 ∧
     eachLinkFresh [] [Op.newBlock "c", Op.newBlock "y", Op.newBlock "n"] = true ∧
     isUnlinked wHeapC2 0 = true ∧ (1 : Nat) ≠ 2 ∧
     linkCond wHeapC2 0 1 2 (some (Atom.Variable ⟨1⟩)) = some wHeapC2') ∧
    predCount wHeapC2' 1 0 = 1 ∧ predCount wHeapC2' 2 0 = 1 :=
  ⟨⟨rfl, rfl, rfl, by decide, rfl⟩,
   (claim_C2 [Op.newBlock "c", Op.newBlock "y", Op.newBlock "n"] wHeapC2 0 1 2
      (some (Atom.Variable ⟨1⟩)) wHeapC2' rfl rfl rfl (by decide) rfl).2.1,
   (claim_C2 [Op.newBlock "c", Op.newBlock "y", Op.newBlock "n"] wHeapC2 0 1 2
      (some (Atom.Variable ⟨1⟩)) wHeapC2' rfl rfl rfl (by decide) rfl).2.2.1⟩

/-- C2 counterexample: the claim as stated is false when the two targets
coincide.  Linking fresh block 0 conditionally to `(1, 1)` pushes block 0
twice into block 1's predecessors, so it does not appear there exactly
once. -/
theorem claim_C2_counterexample :
    isUnlinked cexHeapC2 0 = true ∧
    linkCond cexHeapC2 0 1 1 none = some cexHeapC2' ∧
    (getBlock cexHeapC2' 0)._transition = some (Jump.JumpCond 1 1 none) ∧
    (getBlock cexHeapC2' 1).predecessors = [0, 0] ∧
    predCount cexHeapC2' 1 0 ≠ 1 :=
  ⟨rfl, rfl, rfl, rfl, by decide⟩

/-- C3: for every previously unlinked block `B` and every unconditional
link of `B` to target `T`: the link sets `B`'s transition to a `JumpAlways`
whose destination is `T`, `B` is appended to `T.predecessors` (so it occurs
there exactly once), and every other block's predecessor list is
unchanged.  The witness realises Scenario A: entry `E` with
`Assignment(v1, Int(5))` linked unconditionally to `R` with
`Return(Variable(v1))`: `E.predecessors` stays empty, `R.predecessors`
becomes `[E]`, and `E`'s transition is a `JumpAlways` to `R`. -/
theorem claim_C3 :
    ∀ ops h b t h',
      run ops = some h → eachLinkFresh [] ops = true →
      isUnlinked h b = true →
      linkNext h b t = some h' →
      (getBlock h' b)._transition = some (Jump.JumpAlways t) ∧
      predCount h' t b = 1 ∧
      (getBlock h' t).predecessors = (getBlock h t).predecessors ++ [b] ∧
      (∀ u, u ≠ t → (getBlock h' u).predecessors = (getBlock h u).predecessors) := by
  intro ops h b t h' hrun hfresh hunl hlink
  obtain ⟨hinv, _⟩ := run_inv ops h hrun hfresh
  obtain ⟨htr, hpds, hother⟩ := linkNext_effects h b t h' hlink
  have hb0 : (getBlock h b)._transition = none := (isUnlinked_iff h b).mp hunl
  have hz : predCount h t b = 0 := by
    rw [hinv b t]
    exact edgeCount_of_unlinked h b hb0 t
  unfold predCount at hz
  refine ⟨htr, ?_, hpds, hother⟩
  unfold predCount
  rw [hpds]
  simp [List.count_append, List.count_singleton, hz]

/-- Witness for C3: Scenario A. -/
theorem claim_C3_witness :
    (run wOpsC3 = some wHeapC3 ∧ eachLinkFresh [] wOpsC3 = true ∧
     isUnlinked wHeapC3 0 = true ∧ linkNext wHeapC3 0 1 = some wHeapC3') ∧
    (getBlock wHeapC3' 0)._transition = some (Jump.JumpAlways 1) ∧
    predCount wHeapC3' 1 0 = 1 ∧
    (getBlock wHeapC3' 1).predecessors = (getBlock wHeapC3 1).predecessors ++ [0] ∧
    (getBlock wHeapC3 1).predecessors = [] ∧
    (getBlock wHeapC3' 0).predecessors = [] ∧
    (getBlock wHeapC3' 1).predecessors = [0] :=
  ⟨⟨rfl, rfl, rfl, rfl⟩,
   (claim_C3 wOpsC3 wHeapC3 0 1 wHeapC3' rfl rfl rfl rfl).1,
   (claim_C3 wOpsC3 wHeapC3 0 1 wHeapC3' rfl rfl rfl rfl).2.1,
   (claim_C3 wOpsC3 wHeapC3 0 1 wHeapC3' rfl rfl rfl rfl).2.2.1,
   rfl, rfl, rfl⟩

/-- C4 (amended): linking a block that already has a transition does
**not** fail — the source has no `AlreadyLinked` check.  The further link
(unconditional or conditional) overwrites the transition with the new jump
and appends the linking block to the new targets' predecessor lists; every
predecessor entry made by the first link remains (every predecessor list
of the old heap is a prefix of the corresponding new list). -/
theorem claim_C4 :
    (∀ h h' b next j,
      (getBlock h b)._transition = some j →
      linkNext h b next = some h' →
      (getBlock h' b)._transition = some (Jump.JumpAlways next) ∧
      ∀ t, (getBlock h t).predecessors <+: (getBlock h' t).predecessors) ∧
    (∀ h h' b y n c j,
      (getBlock h b)._transition = some j →
      linkCond h b y n c = some h' →
      (getBlock h' b)._transition = some (Jump.JumpCond y n c) ∧
      ∀ t, (getBlock h t).predecessors <+: (getBlock h' t).predecessors) := by
  constructor
  · intro h h' b next j _ hs
    exact ⟨(linkNext_effects h b next h' hs).1,
      fun t => linkNext_preds_prefix h b next h' hs t⟩
  · intro h h' b y n c j _ hs
    exact ⟨linkCond_trans h b y n c h' hs,
      fun t => linkCond_preds_prefix h b y n c h' hs t⟩

/-- Witness for C4: block 0, already linked to block 1, is relinked to
block 2. -/
theorem claim_C4_witness :
    ((getBlock cexHeapC4 0)._transition = some (Jump.JumpAlways 1) ∧
     linkNext cexHeapC4 0 2 = some cexHeapC4') ∧
    (getBlock cexHeapC4' 0)._transition = some (Jump.JumpAlways 2) ∧
    (getBlock cexHeapC4 1).predecessors <+: (getBlock cexHeapC4' 1).predecessors :=
  ⟨⟨rfl, rfl⟩,
   (claim_C4.1 cexHeapC4 cexHeapC4' 0 2 (Jump.JumpAlways 1) rfl rfl).1,
   (claim_C4.1 cexHeapC4 cexHeapC4' 0 2 (Jump.JumpAlways 1) rfl rfl).2 1⟩

/-- C4 counterexample: the claim as stated is false.  A second link on an
already-linked block succeeds (returns a new heap rather than failing),
overwrites the transition, and block 2's predecessor list gains a new
entry. -/
theorem claim_C4_counterexample :
    (getBlock cexHeapC4 0)._transition = some (Jump.JumpAlways 1) ∧
    step cexHeapC4 (Op.linkNext 0 2) = some cexHeapC4' ∧
    (getBlock cexHeapC4' 0)._transition = some (Jump.JumpAlways 2) ∧
    (getBlock cexHeapC4' 0)._transition ≠ some (Jump.JumpAlways 1) ∧
    (getBlock cexHeapC4 2).predecessors = [] ∧
    (getBlock cexHeapC4' 2).predecessors = [0] :=
  ⟨rfl, rfl, rfl,
   by
     show some (Jump.JumpAlways 2) ≠ some (Jump.JumpAlways 1)
     simp,
   rfl, rfl⟩

/-- C5 (amended): node construction performs no validation and never
fails: a `BinOp` (or `UnOp`) whose required operand reference is absent is
still constructed, stores the null reference, and is a fully usable node —
it carries the `IT_BinOp` tag, passes `isBinOp`, casts via `asBinOp` to
itself and is dispatched to the visitor's BinOp handler.  No
`MalformedNode` failure exists in this layer. -/
theorem claim_C5 :
    ∀ (r : Option Expression) (t : BinOpType) (u : UnOpType) (v : IrVisitor),
      IrElement.getType (IrElement.ofExpression (Expression.BinOp none r t)) =
        IrType.IT_BinOp ∧
      IrElement.isBinOp (IrElement.ofExpression (Expression.BinOp none r t)) = true ∧
      IrElement.asBinOp (IrElement.ofExpression (Expression.BinOp none r t)) =
        some (IrElement.ofExpression (Expression.BinOp none r t)) ∧
      v.visit (IrElement.ofExpression (Expression.BinOp none r t)) =
        v.visitBinOp none r t ∧
      IrElement.getType (IrElement.ofExpression (Expression.UnOp none u)) =
        IrType.IT_UnOp ∧
      v.visit (IrElement.ofExpression (Expression.UnOp none u)) =
        v.visitUnOp none u :=
  fun _ _ _ _ => ⟨rfl, rfl, rfl, rfl, rfl, rfl⟩

/-- C5 counterexample: the claim as stated is false.  Constructing a
`BinOp` with an absent left operand does not fail with `MalformedNode` —
the source constructor returns a usable `BinOp` node — whereas the
spec-side checked constructor `binOpSpec` rejects the same input. -/
theorem claim_C5_counterexample :
    binOpSpec none (some (Expression.atom (Atom.Int 7))) BinOpType.BO_ADD =
      Except.error SpecError.MalformedNode ∧
    IrElement.getType (IrElement.ofExpression cexNodeC5) = IrType.IT_BinOp ∧
    IrElement.isBinOp (IrElement.ofExpression cexNodeC5) = true ∧
    IrElement.asBinOp (IrElement.ofExpression cexNodeC5) =
      some (IrElement.ofExpression cexNodeC5) ∧
    idVisitor.visit (IrElement.ofExpression cexNodeC5) =
      some (IrElement.ofExpression cexNodeC5) :=
  ⟨rfl, rfl, rfl, rfl, rfl⟩

/-- C6: for every visitor and every node of concrete kind `K` (over the
closed 15-kind set), the dispatched call `v->visit(this)` invokes exactly
the visitor's `K` handler on the node's own data — never a default handler
(none exists) and never another kind's handler: the result coincides with
that one handler's for *every* visitor, so it can depend on no other. -/
theorem claim_C6 :
    ∀ v : IrVisitor,
      (∀ w, v.visit (IrElement.ofExpression (Expression.atom (Atom.Variable w))) =
        v.visitVariable w) ∧
      (∀ x, v.visit (IrElement.ofExpression (Expression.atom (Atom.Int x))) =
        v.visitInt x) ∧
      (∀ x, v.visit (IrElement.ofExpression (Expression.atom (Atom.Double x))) =
        v.visitDouble x) ∧
      (∀ x b, v.visit (IrElement.ofExpression (Expression.atom (Atom.Ptr x b))) =
        v.visitPtr x b) ∧
      (∀ l r t, v.visit (IrElement.ofExpression (Expression.BinOp l r t)) =
        v.visitBinOp l r t) ∧
      (∀ o t, v.visit (IrElement.ofExpression (Expression.UnOp o t)) =
        v.visitUnOp o t) ∧
      (∀ vs, v.visit (IrElement.ofExpression (Expression.Phi vs)) =
        v.visitPhi vs) ∧
      (∀ f ps, v.visit (IrElement.ofExpression (Expression.Call f ps)) =
        v.visitCall f ps) ∧
      (∀ w e, v.visit (IrElement.ofStatement (Statement.Assignment w e)) =
        v.visitAssignment w e) ∧
      (∀ a, v.visit (IrElement.ofStatement (Statement.Return a)) =
        v.visitReturn a) ∧
      (∀ a, v.visit (IrElement.ofStatement (Statement.Print a)) =
        v.visitPrint a) ∧
      (∀ d, v.visit (IrElement.ofJump (Jump.JumpAlways d)) =
        v.visitJumpAlways d) ∧
      (∀ y n c, v.visit (IrElement.ofJump (Jump.JumpCond y n c)) =
        v.visitJumpCond y n c) ∧
      (∀ b, v.visit (IrElement.ofBlock b) = v.visitBlock b) ∧
      (∀ f, v.visit (IrElement.ofFunctionRecord f) = v.visitFunctionRecord f) :=
  fun _ =>
    ⟨fun _ => rfl, fun _ => rfl, fun _ => rfl, fun _ _ => rfl, fun _ _ _ => rfl,
     fun _ _ => rfl, fun _ => rfl, fun _ _ => rfl, fun _ _ => rfl, fun _ => rfl,
     fun _ => rfl, fun _ => rfl, fun _ _ _ => rfl, fun _ => rfl, fun _ => rfl⟩

/-- C7 (code bug): the handler invoked by the dispatch produces the
rewritten node (`some` the original node for an identity visitor), but the
accept operation's body (`IR_COMMON_FUNCTIONS`) invokes `v->visit(this)`
without a `return` statement, so the handler's value is discarded and the
accept operation produces no `IrElement` value at all: it does not return
what the visitor produced. -/
theorem claim_C7 :
    IrVisitor.visit idVisitor (IrElement.ofExpression (Expression.atom (Atom.Int 5))) =
      some (IrElement.ofExpression (Expression.atom (Atom.Int 5))) ∧
    IrElement.visit (IrElement.ofExpression (Expression.atom (Atom.Int 5))) idVisitor =
      () :=
  ⟨rfl, rfl⟩

/-- C8: the tag-identify capability is consistent for every node: `is-K`
answers `true` exactly when the variant tag is `IT_K`, and `as-K` returns
the node itself exactly when the tag is `IT_K` and null (`none`)
otherwise, for every kind `K` of the closed set. -/
theorem claim_C8 :
    ∀ e : IrElement,
      (e.isBinOp = decide (e.getType = IrType.IT_BinOp)) ∧
      (e.asBinOp = if e.getType = IrType.IT_BinOp then some e else none) ∧
      (e.isUnOp = decide (e.getType = IrType.IT_UnOp)) ∧
      (e.asUnOp = if e.getType = IrType.IT_UnOp then some e else none) ∧
      (e.isVariable = decide (e.getType = IrType.IT_Variable)) ∧
      (e.asVariable = if e.getType = IrType.IT_Variable then some e else none) ∧
      (e.isReturn = decide (e.getType = IrType.IT_Return)) ∧
      (e.asReturn = if e.getType = IrType.IT_Return then some e else none) ∧
      (e.isPhi = decide (e.getType = IrType.IT_Phi)) ∧
      (e.asPhi = if e.getType = IrType.IT_Phi then some e else none) ∧
      (e.isInt = decide (e.getType = IrType.IT_Int)) ∧
      (e.asInt = if e.getType = IrType.IT_Int then some e else none) ∧
      (e.isDouble = decide (e.getType = IrType.IT_Double)) ∧
      (e.asDouble = if e.getType = IrType.IT_Double then some e else none) ∧
      (e.isPtr = decide (e.getType = IrType.IT_Ptr)) ∧
      (e.asPtr = if e.getType = IrType.IT_Ptr then some e else none) ∧
      (e.isBlock = decide (e.getType = IrType.IT_Block)) ∧
      (e.asBlock = if e.getType = IrType.IT_Block then some e else none) ∧
      (e.isAssignment = decide (e.getType = IrType.IT_Assignment)) ∧
      (e.asAssignment = if e.getType = IrType.IT_Assignment then some e else none) ∧
      (e.isCall = decide (e.getType = IrType.IT_Call)) ∧
      (e.asCall = if e.getType = IrType.IT_Call then some e else none) ∧
      (e.isPrint = decide (e.getType = IrType.IT_Print)) ∧
      (e.asPrint = if e.getType = IrType.IT_Print then some e else none) ∧
      (e.isFunctionRecord = decide (e.getType = IrType.IT_FunctionRecord)) ∧
      (e.asFunctionRecord =
        if e.getType = IrType.IT_FunctionRecord then some e else none) ∧
      (e.isJumpAlways = decide (e.getType = IrType.IT_JumpAlways)) ∧
      (e.asJumpAlways = if e.getType = IrType.IT_JumpAlways then some e else none) ∧
      (e.isJumpCond = decide (e.getType = IrType.IT_JumpCond)) ∧
      (e.asJumpCond = if e.getType = IrType.IT_JumpCond then some e else none) := by
  intro e
  rcases e with
    ((_ | _ | _ | ⟨_, _⟩) | ⟨_, _, _⟩ | ⟨_, _⟩ | _ | ⟨_, _⟩) |
    (⟨_, _⟩ | _ | _) | (_ | ⟨_, _, _⟩) | _ | _ <;>
    exact ⟨rfl, rfl, rfl, rfl, rfl, rfl, rfl, rfl, rfl, rfl, rfl, rfl, rfl, rfl, rfl,
      rfl, rfl, rfl, rfl, rfl, rfl, rfl, rfl, rfl, rfl, rfl, rfl, rfl, rfl, rfl⟩

/-- C9: `newBlock(name)` creates an empty, unlinked block: its name is the
given string, its statement sequence is empty, its transition is unset and
its predecessor set is empty. -/
theorem claim_C9 :
    ∀ name : String,
      (newBlock name).name = name ∧
      (newBlock name).getTransition = none ∧
      (newBlock name).predecessors = [] ∧
      (newBlock name).contents = [] :=
  fun _ => ⟨rfl, rfl, rfl, rfl⟩

/-- C10: `FunctionRecord(id, returnType)` stores the id and return kind
unchanged, leaves the parameter-id list and the string pool empty, and
creates the entry block with name equal to the decimal rendering of the
id, no statements, no transition and no predecessors. -/
theorem claim_C10 :
    ∀ (i : Nat) (rt : VarType),
      (mkFunctionRecord i rt).id = i ∧
      (mkFunctionRecord i rt).returnType = rt ∧
      (mkFunctionRecord i rt).parametersIds = [] ∧
      (mkFunctionRecord i rt).pool = [] ∧
      (mkFunctionRecord i rt).entry.name = Nat.repr i ∧
      (mkFunctionRecord i rt).entry.getTransition = none ∧
      (mkFunctionRecord i rt).entry.predecessors = [] ∧
      (mkFunctionRecord i rt).entry.contents = [] :=
  fun _ _ => ⟨rfl, rfl, rfl, rfl, rfl, rfl, rfl, rfl⟩

end IR

end mathvm
